import Mathlib

/-
  Shallow embedding of libs/colorwheel.py (PyDPainter color wheel selector).

  The embedding follows the source file closely:
  - real-valued helpers mirror the Python math library and colorsys module
    (idealized over the reals, as the spec describes the algorithm);
  - _generate_wheel_surface, _get_wheel_surface, ColorWheelGadget.draw,
    ColorWheelGadget.process_event and colorwheel_req mirror the functions
    of the same names;
  - the parts of libs/gadget.py that colorwheel.py calls are not in the
    sources available here; where a claim depends on them they are modelled
    from the specification text and marked as such in their doc comments.
-/

namespace ColorWheel

/-- A color is an RGB triple of integers, as produced by the source
(int(r*255), int(g*255), int(b*255)) expressions. -/
abbrev Color := ℤ × ℤ × ℤ

/-- Truncation toward zero, the semantics of the Python int() conversion
applied to a float. -/
noncomputable def truncInt (x : ℝ) : ℤ :=
  if 0 ≤ x then ⌊x⌋ else ⌈x⌉

/-- Python float modulo a % b (sign follows b): a - b * floor (a / b).
Used to embed the expression atan2 (-dy, dx) % (2 * pi) of the source. -/
noncomputable def pymod (a b : ℝ) : ℝ :=
  a - b * (⌊a / b⌋ : ℤ)

/-- Two-argument arctangent, the semantics of Python math.atan2 (y, x):
the angle of the point (x, y), in the interval (-pi, pi]. -/
noncomputable def atan2 (y x : ℝ) : ℝ :=
  if 0 < x then Real.arctan (y / x)
  else if x < 0 then
    (if 0 ≤ y then Real.arctan (y / x) + Real.pi
     else Real.arctan (y / x) - Real.pi)
  else
    (if 0 < y then Real.pi / 2
     else if y < 0 then -(Real.pi / 2)
     else 0)

/-- The colorsys.hsv_to_rgb conversion from the Python standard library,
line for line: i = int(h*6); f = h*6 - i; p = v*(1-s); q = v*(1-s*f);
t = v*(1-s*(1-f)); then a 6-way branch on i % 6.  In Python the i == 5
case is the last tested one and i % 6 always lies in 0..5, so the final
else branch below is exactly the i == 5 return of the source. -/
noncomputable def hsv_to_rgb (h s v : ℝ) : ℝ × ℝ × ℝ :=
  if s = 0 then (v, v, v)
  else
    let i : ℤ := truncInt (h * 6)
    let f : ℝ := h * 6 - (i : ℝ)
    let p : ℝ := v * (1 - s)
    let q : ℝ := v * (1 - s * f)
    let t : ℝ := v * (1 - s * (1 - f))
    let i6 : ℤ := i % 6
    if i6 = 0 then (v, t, p)
    else if i6 = 1 then (q, v, p)
    else if i6 = 2 then (p, v, q)
    else if i6 = 3 then (v, p, q)
    else if i6 = 4 then (t, v, p)
    else (p, q, v)

theorem pymod_nonneg (a : ℝ) {b : ℝ} (hb : 0 < b) : 0 ≤ pymod a b := by
  unfold pymod
  have hfl : (⌊a / b⌋ : ℝ) ≤ a / b := Int.floor_le _
  have := mul_le_mul_of_nonneg_left hfl (le_of_lt hb)
  have hdiv : b * (a / b) = a := by
    field_simp
  linarith

theorem pymod_lt (a : ℝ) {b : ℝ} (hb : 0 < b) : pymod a b < b := by
  unfold pymod
  have hfl : a / b < (⌊a / b⌋ : ℝ) + 1 := Int.lt_floor_add_one _
  have := mul_lt_mul_of_pos_left hfl hb
  have hdiv : b * (a / b) = a := by
    field_simp
  nlinarith

theorem truncInt_nonneg_eq_floor {x : ℝ} (hx : 0 ≤ x) : truncInt x = ⌊x⌋ := by
  unfold truncInt
  exact if_pos hx

/-- Each output channel of hsv_to_rgb lies in the unit interval when the
hue is nonnegative, the saturation lies in the unit interval, and the
value is 1 (the fixed brightness used throughout the source). -/
theorem hsv_to_rgb_mem_unit {h s : ℝ} (hh : 0 ≤ h) (hs0 : 0 ≤ s) (hs1 : s ≤ 1) :
    (0 ≤ (hsv_to_rgb h s 1).1 ∧ (hsv_to_rgb h s 1).1 ≤ 1) ∧
    (0 ≤ (hsv_to_rgb h s 1).2.1 ∧ (hsv_to_rgb h s 1).2.1 ≤ 1) ∧
    (0 ≤ (hsv_to_rgb h s 1).2.2 ∧ (hsv_to_rgb h s 1).2.2 ≤ 1) := by
  unfold hsv_to_rgb
  by_cases hs : s = 0
  · rw [if_pos hs]
    norm_num
  · rw [if_neg hs]
    have h6 : 0 ≤ h * 6 := by linarith
    rw [truncInt_nonneg_eq_floor h6]
    simp only []
    have hf0 : 0 ≤ h * 6 - (⌊h * 6⌋ : ℝ) := by
      have := Int.floor_le (h * 6)
      linarith
    have hf1 : h * 6 - (⌊h * 6⌋ : ℝ) ≤ 1 := by
      have := Int.lt_floor_add_one (h * 6)
      linarith
    set f : ℝ := h * 6 - (⌊h * 6⌋ : ℝ) with hfdef
    have hp0 : (0:ℝ) ≤ 1 * (1 - s) := by nlinarith
    have hp1 : (1:ℝ) * (1 - s) ≤ 1 := by nlinarith
    have hq0 : (0:ℝ) ≤ 1 * (1 - s * f) := by nlinarith
    have hq1 : (1:ℝ) * (1 - s * f) ≤ 1 := by nlinarith
    have ht0 : (0:ℝ) ≤ 1 * (1 - s * (1 - f)) := by nlinarith
    have ht1 : (1:ℝ) * (1 - s * (1 - f)) ≤ 1 := by nlinarith
    split
    · exact ⟨⟨by norm_num, by norm_num⟩, ⟨ht0, ht1⟩, hp0, hp1⟩
    · split
      · exact ⟨⟨hq0, hq1⟩, ⟨by norm_num, by norm_num⟩, hp0, hp1⟩
      · split
        · exact ⟨⟨hp0, hp1⟩, ⟨by norm_num, by norm_num⟩, hq0, hq1⟩
        · split
          · exact ⟨⟨by norm_num, by norm_num⟩, ⟨hp0, hp1⟩, hq0, hq1⟩
          · split
            · exact ⟨⟨ht0, ht1⟩, ⟨by norm_num, by norm_num⟩, hp0, hp1⟩
            · exact ⟨⟨hp0, hp1⟩, ⟨hq0, hq1⟩, by norm_num, by norm_num⟩

/-- A unit-interval channel scaled by 255 and truncated is an integer
in 0..255, the 8-bit channel range. -/
theorem truncInt_channel_range {c : ℝ} (h0 : 0 ≤ c) (h1 : c ≤ 1) :
    0 ≤ truncInt (c * 255) ∧ truncInt (c * 255) ≤ 255 := by
  have hx0 : (0:ℝ) ≤ c * 255 := by nlinarith
  rw [truncInt_nonneg_eq_floor hx0]
  constructor
  · exact Int.floor_nonneg.mpr hx0
  · have hle : c * 255 ≤ 255 := by nlinarith
    have := Int.floor_le (c * 255)
    have h255 : (⌊c * 255⌋ : ℝ) ≤ 255 := by linarith
    exact_mod_cast h255

/-- A rendered wheel buffer: a square pixel grid.  Mirrors the
pygame.Surface produced by _generate_wheel_surface, which has side
length diameter = radius * 2 and one Color per pixel. -/
structure WheelSurface where
  diameter : ℕ
  pix : ℕ → ℕ → Color

/-- Embedding of _generate_wheel_surface (colorwheel.py lines 39-59).
For each pixel: dx = x - radius, dy = y - radius, dist = hypot dx dy;
pixels with dist > radius receive (0, 0, 0); the rest receive the HSV
color with hue = (atan2 (-dy, dx) % 2 pi) / 2 pi, sat = min 1 (dist /
radius), value 1, converted to an RGB triple of truncated channels. -/
noncomputable def _generate_wheel_surface (radius : ℕ) : WheelSurface where
  diameter := radius * 2
  pix := fun x y =>
    let dx : ℤ := (x : ℤ) - (radius : ℤ)
    let dy : ℤ := (y : ℤ) - (radius : ℤ)
    let dist : ℝ := Real.sqrt ((dx : ℝ) ^ 2 + (dy : ℝ) ^ 2)
    if dist > (radius : ℝ) then (0, 0, 0)
    else
      let hue : ℝ := pymod (atan2 (-(dy : ℝ)) (dx : ℝ)) (2 * Real.pi) / (2 * Real.pi)
      let sat : ℝ := min 1 (dist / (radius : ℝ))
      let c := hsv_to_rgb hue sat 1
      (truncInt (c.1 * 255), truncInt (c.2.1 * 255), truncInt (c.2.2 * 255))

/-- The color the specification prescribes for a point displaced by
(dx, dy) from the wheel center: hue = (atan2 (-dy, dx) mod 2 pi) / 2 pi,
saturation = min (1, dist / radius), value = 1.0, converted from HSV to
an RGB Color.  Written from the words of the spec, for comparison with
the source-derived renderer and click handler. -/
noncomputable def specHSVColor (radius : ℕ) (dx dy : ℤ) : Color :=
  let dist : ℝ := Real.sqrt ((dx : ℝ) ^ 2 + (dy : ℝ) ^ 2)
  let hue : ℝ := pymod (atan2 (-(dy : ℝ)) (dx : ℝ)) (2 * Real.pi) / (2 * Real.pi)
  let sat : ℝ := min 1 (dist / (radius : ℝ))
  let c := hsv_to_rgb hue sat 1
  (truncInt (c.1 * 255), truncInt (c.2.1 * 255), truncInt (c.2.2 * 255))

/-- Every pixel of the rendered surface is either the out-of-wheel value
(0, 0, 0) or the HSV color of its displacement from the center. -/
theorem gen_pix_cases (radius x y : ℕ) :
    (_generate_wheel_surface radius).pix x y = (0, 0, 0) ∨
    (_generate_wheel_surface radius).pix x y =
      specHSVColor radius ((x : ℤ) - (radius : ℤ)) ((y : ℤ) - (radius : ℤ)) := by
  unfold _generate_wheel_surface specHSVColor
  simp only []
  split
  · left; rfl
  · right; rfl

/-- The global _WHEEL_CACHE dictionary, keyed by radius. -/
def WheelCache := ℕ → Option WheelSurface

/-- Embedding of _get_wheel_surface (colorwheel.py lines 65-68): if the
radius is not a key of the cache, render and insert; return the cache
entry for the radius.  The state is passed explicitly; the returned
Bool records whether this call rendered (the body of the membership
test ran), which the source performs exactly when the key is missing. -/
noncomputable def _get_wheel_surface (cache : WheelCache) (radius : ℕ) :
    WheelSurface × WheelCache × Bool :=
  match cache radius with
  | some surf => (surf, cache, false)
  | none =>
      let surf := _generate_wheel_surface radius
      (surf, fun r => if r = radius then some surf else cache r, true)

/-- A pygame-style rectangle: position and size. -/
structure Rect where
  x : ℤ
  y : ℤ
  w : ℤ
  h : ℤ
deriving DecidableEq

/-- Modelled from the spec: Gadget.pointin lives in libs/gadget.py,
which is not among the sources here.  The spec (section 4.2) accepts a
pointer-down when the position falls within the placement rectangle
bounds, and its hit-test boundary property treats points of the circle
boundary as inside; the rectangle test is therefore modelled as closed
containment. -/
def pointin (px py : ℤ) (r : Rect) : Prop :=
  r.x ≤ px ∧ px ≤ r.x + r.w ∧ r.y ≤ py ∧ py ≤ r.y + r.h

instance (px py : ℤ) (r : Rect) : Decidable (pointin px py r) := by
  unfold pointin
  infer_instance

/-- The pygame event types process_event distinguishes. -/
inductive PEventType
  | mousebuttondown
  | mousebuttonup
  | otherEvent
deriving DecidableEq

/-- A pygame input event: type and button number (button 1 is the
primary button). -/
structure PEvent where
  type : PEventType
  button : ℤ
deriving DecidableEq

/-- The state of a ColorWheelGadget: the constructor arguments rect and
radius, the screenrect placement set by draw, the selected value (None
until a click inside the wheel, as the missing Gadget base class leaves
value unset per the spec), and the need_redraw flag set at construction. -/
structure WheelState where
  radius : ℕ
  rect : Rect
  screenrect : Rect
  value : Option Color
  need_redraw : Bool

/-- Gadget events emitted by the wheel: the source emits
GadgetEvent (TYPE_GADGETUP, event, self) for an accepted click. -/
inductive WheelEmit
  | gadgetup
deriving DecidableEq

/-- Embedding of ColorWheelGadget.process_event (colorwheel.py lines
104-129).  Non-mouse events, positions outside the screenrect, events
other than a primary-button down, and clicks with dist > radius all
return the state unchanged with no emitted events; a primary-button
down within the radius stores the HSV color of the displacement from
the screenrect center and emits a gadgetup event.  The early returns of
the source are written as nested conditionals. -/
noncomputable def process_event (g : WheelState) (ev : PEvent) (mx my : ℤ) :
    WheelState × List WheelEmit :=
  if ev.type = PEventType.mousebuttondown ∨ ev.type = PEventType.mousebuttonup then
    if pointin mx my g.screenrect then
      if ev.type = PEventType.mousebuttondown ∧ ev.button = 1 then
        let cx : ℤ := g.screenrect.x + g.screenrect.w.fdiv 2
        let cy : ℤ := g.screenrect.y + g.screenrect.h.fdiv 2
        let dx : ℤ := mx - cx
        let dy : ℤ := my - cy
        let dist : ℝ := Real.sqrt ((dx : ℝ) ^ 2 + (dy : ℝ) ^ 2)
        if dist > (g.radius : ℝ) then (g, [])
        else
          let hue : ℝ := pymod (atan2 (-(dy : ℝ)) (dx : ℝ)) (2 * Real.pi) / (2 * Real.pi)
          let sat : ℝ := min 1 (dist / (g.radius : ℝ))
          let c := hsv_to_rgb hue sat 1
          let newval : Option Color :=
            some (truncInt (c.1 * 255), truncInt (c.2.1 * 255), truncInt (c.2.2 * 255))
          ({ g with value := newval }, [WheelEmit.gadgetup])
      else (g, [])
    else (g, [])
  else (g, [])

/-- A drawing surface: a color for every pixel coordinate. -/
abbrev Screen := ℤ → ℤ → Color

/-- pygame Surface.fill restricted to a rectangle: pixels inside the
half-open rectangle receive the color, the rest are unchanged. -/
def fill (screen : Screen) (color : Color) (r : Rect) : Screen :=
  fun px py =>
    if r.x ≤ px ∧ px < r.x + r.w ∧ r.y ≤ py ∧ py < r.y + r.h then color
    else screen px py

/-- pygame Surface.blit of a wheel surface at a top-left position: the
source surface has no colorkey and no alpha (it was created with
pygame.Surface and convert), so every one of its pixels overwrites the
destination, including the (0, 0, 0) pixels outside the circle. -/
def blit (screen : Screen) (surf : WheelSurface) (ox oy : ℤ) : Screen :=
  fun px py =>
    if ox ≤ px ∧ px < ox + (surf.diameter : ℤ) ∧ oy ≤ py ∧ py < oy + (surf.diameter : ℤ)
    then surf.pix (px - ox).toNat (py - oy).toNat
    else screen px py

/-- Embedding of ColorWheelGadget.draw (colorwheel.py lines 82-98): set
screenrect from rect and offset; if need_redraw is clear return the
screen unchanged, else clear the flag, fill the screenrect with bgcolor
and blit the wheel surface centered in it.  get_rect with a center
places the top-left at center minus half the surface size, with pygame
integer division.  The wheel surface of the gadget is the one the
radius cache returns, which is the rendering for its radius. -/
noncomputable def draw (g : WheelState) (screen : Screen) (offsetx offsety : ℤ)
    (bgcolor : Color) : WheelState × Screen :=
  let sr : Rect := { x := g.rect.x + offsetx, y := g.rect.y + offsety,
                     w := g.rect.w, h := g.rect.h }
  if g.need_redraw = false then ({ g with screenrect := sr }, screen)
  else
    let g2 := { g with screenrect := sr, need_redraw := false }
    let screen1 := fill screen bgcolor sr
    let surf := _generate_wheel_surface g.radius
    let cx : ℤ := sr.x + sr.w.fdiv 2
    let cy : ℤ := sr.y + sr.h.fdiv 2
    let ox : ℤ := cx - ((surf.diameter : ℤ)).fdiv 2
    let oy : ℤ := cy - ((surf.diameter : ℤ)).fdiv 2
    (g2, blit screen1 surf ox oy)

/-- A gadget event as seen by the colorwheel_req loop (lines 178-193):
a GADGETUP whose gadget is the wheel, the OK button or the Cancel
button, or any other gadget event (skipped by the identity tests).  The
wheel emits a GADGETUP only immediately after storing a clicked color
in its value, so the wheel case carries that color. -/
inductive GEvent
  | wheelUp (c : Color)
  | okUp
  | cancelUp
  | otherGadget
deriving DecidableEq

/-- The local state of colorwheel_req: the wheel gadget value, the
selected variable (initialized None at line 173) and the running flag. -/
structure SessionState where
  wheelValue : Option Color
  selected : Option Color
  running : Bool
deriving DecidableEq

/-- The wheel value updates performed by req.process_event before the
branch loop runs: the wheel stores each clicked color in its value as
it emits the corresponding gadgetup event. -/
def applyWheelSets : SessionState → List GEvent → SessionState
  | s, [] => s
  | s, GEvent.wheelUp c :: rest => applyWheelSets { s with wheelValue := some c } rest
  | s, GEvent.okUp :: rest => applyWheelSets s rest
  | s, GEvent.cancelUp :: rest => applyWheelSets s rest
  | s, GEvent.otherGadget :: rest => applyWheelSets s rest

/-- The branch loop of colorwheel_req (lines 178-193).  A wheel
gadgetup with a tuple value commits it and breaks; an OK gadgetup
copies the wheel value into selected when that value is not None, then
stops and breaks in every case; a Cancel gadgetup clears selected and
breaks; any other gadget event is skipped. -/
def dispatch : SessionState → List GEvent → SessionState
  | s, [] => s
  | s, GEvent.wheelUp _ :: rest =>
      match s.wheelValue with
      | some c => { s with selected := some c, running := false }
      | none => dispatch s rest
  | s, GEvent.okUp :: _ =>
      let sel : Option Color :=
        match s.wheelValue with
        | some c => some c
        | none => s.selected
      { s with selected := sel, running := false }
  | s, GEvent.cancelUp :: _ => { s with selected := none, running := false }
  | s, GEvent.otherGadget :: rest => dispatch s rest

/-- One iteration of the while loop: req.process_event applies the
wheel value updates and returns the gadget events, then the branch
loop runs over them. -/
def loopBody (s : SessionState) (evs : List GEvent) : SessionState :=
  dispatch (applyWheelSets s evs) evs

/-- The while loop of colorwheel_req, driven by the successive gadget
event batches that req.process_event returns for the successive host
events.  When the batches are exhausted with running still set, the
real loop is still blocked in xevent.wait. -/
def runLoop : SessionState → List (List GEvent) → SessionState
  | s, [] => s
  | s, evs :: rest => if s.running then runLoop (loopBody s evs) rest else s

/-- The host configuration state colorwheel_req touches: the reserved
redraw region pixel_req_rect (None when the attribute is absent, which
getattr maps to None) and the screen size used to center the dialog. -/
structure ConfigState where
  pixel_req_rect : Option Rect
  screenW : ℤ
  screenH : ℤ
deriving DecidableEq

/-- The dialog rectangle computed at colorwheel_req lines 139-145:
radius 88, wheel size 176, req_w 192, req_h 216, centered on screen
with Python floor division.  Modelled from the spec for the missing
Requestor.get_screen_rect: the reserved region override is the dialog
rectangle on screen. -/
def reqRect (screenW screenH : ℤ) : Rect :=
  let wheel_size : ℤ := 88 * 2
  let req_w : ℤ := wheel_size + 16
  let req_h : ℤ := wheel_size + 40
  { x := (screenW - req_w).fdiv 2, y := (screenH - req_h).fdiv 2, w := req_w, h := req_h }

/-- The session state at loop entry: the wheel value is seeded with the
initial color when one is supplied (lines 163-164), selected is None
and the loop is running. -/
def initState (initial_rgb : Option Color) : SessionState :=
  { wheelValue := initial_rgb, selected := none, running := true }

/-- Embedding of colorwheel_req (colorwheel.py lines 136-203) at the
granularity of gadget-event batches: back up pixel_req_rect, override
it with the dialog rectangle, run the event loop, and on termination
restore the backup and return selected.  The result is None while the
loop is still blocked waiting for further input, and some (selected,
final config) once the loop has terminated.  Drawing is modelled
separately by the draw function; it does not affect this state. -/
def colorwheel_req (cfg : ConfigState) (initial_rgb : Option Color)
    (batches : List (List GEvent)) : Option (Option Color × ConfigState) :=
  let prr_backup := cfg.pixel_req_rect
  let cfg1 : ConfigState :=
    { cfg with pixel_req_rect := some (reqRect cfg.screenW cfg.screenH) }
  let sf := runLoop (initState initial_rgb) batches
  if sf.running then none
  else some (sf.selected, { cfg1 with pixel_req_rect := prr_backup })

/-- The cache entry for the requested radius exists after a call and
holds the returned surface. -/
theorem get_lookup (cache : WheelCache) (radius : ℕ) :
    (_get_wheel_surface cache radius).2.1 radius =
      some (_get_wheel_surface cache radius).1 := by
  unfold _get_wheel_surface
  cases h : cache radius with
  | some surf => simp [h]
  | none => simp [h]

/-- A call with a radius already in the cache returns the entry, leaves
the cache unchanged and does not render. -/
theorem get_hit (cache : WheelCache) (radius : ℕ) (surf : WheelSurface)
    (h : cache radius = some surf) :
    _get_wheel_surface cache radius = (surf, cache, false) := by
  unfold _get_wheel_surface
  rw [h]

/-- No call removes an existing cache entry. -/
theorem get_preserve (cache : WheelCache) (radius2 k : ℕ) (surf : WheelSurface)
    (h : cache k = some surf) :
    (_get_wheel_surface cache radius2).2.1 k = some surf := by
  unfold _get_wheel_surface
  cases h2 : cache radius2 with
  | some s2 => simpa using h
  | none =>
      simp only []
      have hk : k ≠ radius2 := by
        intro he
        rw [he, h2] at h
        exact Option.noConfusion h
      simpa [hk] using h

/-- C6: For every radius, calling the cached renderer twice with that
radius renders at most once: the second call returns the same buffer as
the first without rendering again, leaves the cache unchanged, and the
cache entry made by the first call survives any later call. -/
theorem wheel_cache_idempotent (cache : WheelCache) (radius : ℕ) :
    (_get_wheel_surface (_get_wheel_surface cache radius).2.1 radius).1 =
        (_get_wheel_surface cache radius).1 ∧
    (_get_wheel_surface (_get_wheel_surface cache radius).2.1 radius).2.2 = false ∧
    (_get_wheel_surface (_get_wheel_surface cache radius).2.1 radius).2.1 =
        (_get_wheel_surface cache radius).2.1 ∧
    ∀ radius2 : ℕ,
      (_get_wheel_surface (_get_wheel_surface cache radius).2.1 radius2).2.1 radius =
        some (_get_wheel_surface cache radius).1 := by
  have h1 := get_lookup cache radius
  have h2 := get_hit (_get_wheel_surface cache radius).2.1 radius
    (_get_wheel_surface cache radius).1 h1
  refine ⟨?_, ?_, ?_, ?_⟩
  · rw [h2]
  · rw [h2]
  · rw [h2]
  · intro radius2
    exact get_preserve (_get_wheel_surface cache radius).2.1 radius2 radius
      (_get_wheel_surface cache radius).1 h1

/-- C1 (counterexample): with no initial color and no prior wheel
click, a single OK activation makes colorwheel_req terminate — the
result is not the still-running None, but a terminated session that
returns no color.  The claim that the outcome stays Pending and the
loop continues is false at this input. -/
theorem confirm_without_selection_terminates_cex :
    colorwheel_req ⟨none, 320, 200⟩ none [[GEvent.okUp]] ≠ none ∧
    colorwheel_req ⟨none, 320, 200⟩ none [[GEvent.okUp]] =
      some (none, ⟨none, 320, 200⟩) :=
  ⟨by decide, by decide⟩

/-- C1 (amended): for every session opened with no initial color and no
wheel click, activating the confirm control terminates the event loop
with no color committed: colorwheel_req returns None to the caller,
exactly as a cancellation would, instead of leaving the session
Pending. -/
theorem confirm_without_selection_returns_none (cfg : ConfigState) :
    colorwheel_req cfg none [[GEvent.okUp]] = some (none, cfg) := rfl

/-- C7: when an initial color is supplied the wheel value is seeded
with it, and a confirm activation with no intervening wheel click
terminates the session committing that initial color. -/
theorem initial_color_confirm_commits (cfg : ConfigState) (c : Color) :
    (initState (some c)).wheelValue = some c ∧
    colorwheel_req cfg (some c) [[GEvent.okUp]] = some (some c, cfg) :=
  ⟨rfl, rfl⟩

/-- C8: a cancel activation terminates the session with no color
returned — for every host configuration and every seeded initial
color, and from every loop state whatever gadget events follow the
cancel in the same batch: selected is cleared and the loop stops. -/
theorem cancel_terminates_with_no_color (cfg : ConfigState) (initial : Option Color)
    (s : SessionState) (rest : List GEvent) :
    colorwheel_req cfg initial [[GEvent.cancelUp]] = some (none, cfg) ∧
    (loopBody s (GEvent.cancelUp :: rest)).selected = none ∧
    (loopBody s (GEvent.cancelUp :: rest)).running = false :=
  ⟨rfl, rfl, rfl⟩

/-- C9: on every exit path of the session, the reserved redraw region
pixel_req_rect that was overridden at session start is restored to its
prior value before colorwheel_req returns. -/
theorem pixel_req_rect_restored (cfg : ConfigState) (initial : Option Color)
    (batches : List (List GEvent)) (sel : Option Color) (cfg2 : ConfigState)
    (h : colorwheel_req cfg initial batches = some (sel, cfg2)) :
    cfg2.pixel_req_rect = cfg.pixel_req_rect := by
  unfold colorwheel_req at h
  simp only [] at h
  split at h
  · exact Option.noConfusion h
  · rw [Option.some.injEq, Prod.mk.injEq] at h
    obtain ⟨-, h2⟩ := h
    rw [← h2]

/-- Witness for C9 at a concrete configuration and a cancel batch. -/
theorem pixel_req_rect_restored_witness :
    (⟨some ⟨1, 2, 3, 4⟩, 320, 200⟩ : ConfigState).pixel_req_rect =
      (⟨some ⟨1, 2, 3, 4⟩, 320, 200⟩ : ConfigState).pixel_req_rect :=
  pixel_req_rect_restored ⟨some ⟨1, 2, 3, 4⟩, 320, 200⟩ none [[GEvent.cancelUp]]
    none ⟨some ⟨1, 2, 3, 4⟩, 320, 200⟩ (by decide)

theorem cast_sum_sq (dx dy : ℤ) :
    ((dx : ℝ)) ^ 2 + ((dy : ℝ)) ^ 2 = ((dx ^ 2 + dy ^ 2 : ℤ) : ℝ) := by
  push_cast
  ring

/-- Integer displacements whose squared length is at most the squared
radius lie within the radius in the real metric. -/
theorem sqrt_dist_le_radius {dx dy : ℤ} {radius : ℕ}
    (h : dx ^ 2 + dy ^ 2 ≤ (radius : ℤ) ^ 2) :
    Real.sqrt ((dx : ℝ) ^ 2 + (dy : ℝ) ^ 2) ≤ (radius : ℝ) := by
  rw [cast_sum_sq, Real.sqrt_le_left (by positivity)]
  exact_mod_cast h

/-- Integer displacements whose squared length exceeds the squared
radius lie beyond the radius in the real metric. -/
theorem radius_lt_sqrt_dist {dx dy : ℤ} {radius : ℕ}
    (h : (radius : ℤ) ^ 2 < dx ^ 2 + dy ^ 2) :
    (radius : ℝ) < Real.sqrt ((dx : ℝ) ^ 2 + (dy : ℝ) ^ 2) := by
  rw [cast_sum_sq, Real.lt_sqrt (by positivity)]
  exact_mod_cast h

/-- C2: for every radius > 0, the rendered buffer is a square of side
2 x radius; every pixel within the radius of the center stores the RGB
color the spec formula prescribes for its displacement, and every pixel
beyond the radius stores the out-of-wheel value. -/
theorem wheel_surface_renders_hsv_disk (radius : ℕ) (_hr : 0 < radius) :
    (_generate_wheel_surface radius).diameter = 2 * radius ∧
    ∀ x y : ℕ, x < 2 * radius → y < 2 * radius →
      (Real.sqrt (((((x : ℤ) - (radius : ℤ) : ℤ)) : ℝ) ^ 2 + ((((y : ℤ) - (radius : ℤ) : ℤ)) : ℝ) ^ 2) ≤
          (radius : ℝ) →
        (_generate_wheel_surface radius).pix x y =
          specHSVColor radius ((x : ℤ) - (radius : ℤ)) ((y : ℤ) - (radius : ℤ))) ∧
      ((radius : ℝ) <
          Real.sqrt (((((x : ℤ) - (radius : ℤ) : ℤ)) : ℝ) ^ 2 + ((((y : ℤ) - (radius : ℤ) : ℤ)) : ℝ) ^ 2) →
        (_generate_wheel_surface radius).pix x y = (0, 0, 0)) := by
  refine ⟨Nat.mul_comm radius 2, ?_⟩
  intro x y hx hy
  constructor
  · intro hle
    unfold _generate_wheel_surface specHSVColor
    simp only []
    rw [if_neg (not_lt.mpr hle)]
  · intro hgt
    unfold _generate_wheel_surface
    simp only []
    rw [if_pos hgt]

/-- Witness for C2 at radius 1. -/
theorem wheel_surface_renders_hsv_disk_witness :
    0 < 1 ∧
    ((_generate_wheel_surface 1).diameter = 2 * 1 ∧
     ∀ x y : ℕ, x < 2 * 1 → y < 2 * 1 →
       (Real.sqrt (((((x : ℤ) - ((1 : ℕ) : ℤ) : ℤ)) : ℝ) ^ 2 + ((((y : ℤ) - ((1 : ℕ) : ℤ) : ℤ)) : ℝ) ^ 2) ≤
           ((1 : ℕ) : ℝ) →
         (_generate_wheel_surface 1).pix x y =
           specHSVColor 1 ((x : ℤ) - ((1 : ℕ) : ℤ)) ((y : ℤ) - ((1 : ℕ) : ℤ))) ∧
       (((1 : ℕ) : ℝ) <
           Real.sqrt (((((x : ℤ) - ((1 : ℕ) : ℤ) : ℤ)) : ℝ) ^ 2 + ((((y : ℤ) - ((1 : ℕ) : ℤ) : ℤ)) : ℝ) ^ 2) →
         (_generate_wheel_surface 1).pix x y = (0, 0, 0))) :=
  ⟨Nat.one_pos, wheel_surface_renders_hsv_disk 1 Nat.one_pos⟩

theorem half_of_double (radius : ℕ) : (2 * (radius : ℤ)).fdiv 2 = (radius : ℤ) :=
  Int.mul_fdiv_cancel_left _ (by norm_num)

/-- A displacement bounded by the radius in squared length stays inside
the closed placement rectangle of a wheel gadget whose rectangle has
the wheel size (width and height 2 x radius, as colorwheel_req builds
it), so the rectangle test accepts the click position. -/
theorem pointin_of_disk {radius : ℕ} {srect : Rect} {dx dy : ℤ}
    (hw : srect.w = 2 * (radius : ℤ)) (hh : srect.h = 2 * (radius : ℤ))
    (hin : dx ^ 2 + dy ^ 2 ≤ (radius : ℤ) ^ 2) :
    pointin (srect.x + srect.w.fdiv 2 + dx) (srect.y + srect.h.fdiv 2 + dy) srect := by
  have hr0 : (0 : ℤ) ≤ (radius : ℤ) := Int.natCast_nonneg radius
  have hdx2 : dx ^ 2 ≤ (radius : ℤ) ^ 2 := by nlinarith [sq_nonneg dy]
  have hdy2 : dy ^ 2 ≤ (radius : ℤ) ^ 2 := by nlinarith [sq_nonneg dx]
  have hdxu : dx ≤ (radius : ℤ) := by nlinarith
  have hdxl : -(radius : ℤ) ≤ dx := by nlinarith
  have hdyu : dy ≤ (radius : ℤ) := by nlinarith
  have hdyl : -(radius : ℤ) ≤ dy := by nlinarith
  have hcx : srect.w.fdiv 2 = (radius : ℤ) := by rw [hw]; exact half_of_double radius
  have hcy : srect.h.fdiv 2 = (radius : ℤ) := by rw [hh]; exact half_of_double radius
  unfold pointin
  rw [hcx, hcy, hw, hh]
  exact ⟨by linarith, by linarith, by linarith, by linarith⟩

/-- C3: a primary-button pointer-down on a wheel gadget placed with the
wheel size is accepted when its displacement from the center has
squared length exactly radius squared (the boundary case dist = radius:
it stores the spec color and emits a gadgetup), and produces no state
change and no event when the squared length exceeds radius squared
(dist > radius is the exclusion test, not dist >= radius). -/
theorem hit_test_boundary_inclusive (radius : ℕ) (srect rect0 : Rect)
    (v0 : Option Color) (nr : Bool) (dx dy : ℤ)
    (hw : srect.w = 2 * (radius : ℤ)) (hh : srect.h = 2 * (radius : ℤ)) :
    (dx ^ 2 + dy ^ 2 = (radius : ℤ) ^ 2 →
      process_event ⟨radius, rect0, srect, v0, nr⟩ ⟨PEventType.mousebuttondown, 1⟩
          (srect.x + srect.w.fdiv 2 + dx) (srect.y + srect.h.fdiv 2 + dy) =
        (⟨radius, rect0, srect, some (specHSVColor radius dx dy), nr⟩,
         [WheelEmit.gadgetup])) ∧
    ((radius : ℤ) ^ 2 < dx ^ 2 + dy ^ 2 →
      process_event ⟨radius, rect0, srect, v0, nr⟩ ⟨PEventType.mousebuttondown, 1⟩
          (srect.x + srect.w.fdiv 2 + dx) (srect.y + srect.h.fdiv 2 + dy) =
        (⟨radius, rect0, srect, v0, nr⟩, [])) := by
  constructor
  · intro hb
    have hpt := pointin_of_disk hw hh (le_of_eq hb)
    unfold process_event
    simp only [eq_self_iff_true, true_or, true_and, if_true]
    rw [if_pos hpt]
    rw [add_sub_cancel_left (srect.x + srect.w.fdiv 2) dx]
    rw [add_sub_cancel_left (srect.y + srect.h.fdiv 2) dy]
    rw [if_neg (not_lt.mpr (sqrt_dist_le_radius (le_of_eq hb)))]
    rfl
  · intro hgt
    by_cases hpt : pointin (srect.x + srect.w.fdiv 2 + dx)
        (srect.y + srect.h.fdiv 2 + dy) srect
    · unfold process_event
      simp only [eq_self_iff_true, true_or, true_and, if_true]
      rw [if_pos hpt]
      rw [add_sub_cancel_left (srect.x + srect.w.fdiv 2) dx]
      rw [add_sub_cancel_left (srect.y + srect.h.fdiv 2) dy]
      rw [if_pos (radius_lt_sqrt_dist hgt)]
    · unfold process_event
      simp only [eq_self_iff_true, true_or, true_and, if_true]
      rw [if_neg hpt]

/-- Witness for C3: on a radius-5 wheel at rectangle (0, 0, 10, 10), a
click displaced by (3, 4) has dist exactly 5 and commits the spec
color with a gadgetup; a click displaced by (4, 4) has dist above 5 and
is ignored. -/
theorem hit_test_boundary_inclusive_witness :
    process_event ⟨5, ⟨0, 0, 10, 10⟩, ⟨0, 0, 10, 10⟩, none, true⟩
        ⟨PEventType.mousebuttondown, 1⟩ 8 9 =
      (⟨5, ⟨0, 0, 10, 10⟩, ⟨0, 0, 10, 10⟩, some (specHSVColor 5 3 4), true⟩,
       [WheelEmit.gadgetup]) ∧
    process_event ⟨5, ⟨0, 0, 10, 10⟩, ⟨0, 0, 10, 10⟩, none, true⟩
        ⟨PEventType.mousebuttondown, 1⟩ 9 9 =
      (⟨5, ⟨0, 0, 10, 10⟩, ⟨0, 0, 10, 10⟩, none, true⟩, []) :=
  ⟨(hit_test_boundary_inclusive 5 ⟨0, 0, 10, 10⟩ ⟨0, 0, 10, 10⟩ none true 3 4
      (by decide) (by decide)).1 (by decide),
   (hit_test_boundary_inclusive 5 ⟨0, 0, 10, 10⟩ ⟨0, 0, 10, 10⟩ none true 4 4
      (by decide) (by decide)).2 (by decide)⟩

/-- C5: a primary-button pointer-down displaced by (dx, dy) from the
center of a wheel gadget placed with the wheel size, with the
displacement inside the circle, stores the spec HSV color as the
selected value and emits a gadgetup; the session loop receiving the
resulting wheel gadgetup terminates at once and returns that color to
the caller; and the committed color is the very pixel the renderer
stores at the clicked position — the same HSV formula. -/
theorem wheel_click_commits_and_terminates (radius : ℕ) (srect rect0 : Rect)
    (v0 : Option Color) (nr : Bool) (dx dy : ℤ)
    (hw : srect.w = 2 * (radius : ℤ)) (hh : srect.h = 2 * (radius : ℤ))
    (hin : dx ^ 2 + dy ^ 2 ≤ (radius : ℤ) ^ 2) :
    process_event ⟨radius, rect0, srect, v0, nr⟩ ⟨PEventType.mousebuttondown, 1⟩
        (srect.x + srect.w.fdiv 2 + dx) (srect.y + srect.h.fdiv 2 + dy) =
      (⟨radius, rect0, srect, some (specHSVColor radius dx dy), nr⟩,
       [WheelEmit.gadgetup]) ∧
    (∀ (cfg : ConfigState) (initial : Option Color),
      colorwheel_req cfg initial [[GEvent.wheelUp (specHSVColor radius dx dy)]] =
        some (some (specHSVColor radius dx dy), cfg)) ∧
    (_generate_wheel_surface radius).pix ((radius : ℤ) + dx).toNat
        ((radius : ℤ) + dy).toNat = specHSVColor radius dx dy := by
  have hr0 : (0 : ℤ) ≤ (radius : ℤ) := Int.natCast_nonneg radius
  have hdx2 : dx ^ 2 ≤ (radius : ℤ) ^ 2 := by nlinarith [sq_nonneg dy]
  have hdy2 : dy ^ 2 ≤ (radius : ℤ) ^ 2 := by nlinarith [sq_nonneg dx]
  have hdxl : -(radius : ℤ) ≤ dx := by nlinarith
  have hdyl : -(radius : ℤ) ≤ dy := by nlinarith
  refine ⟨?_, ?_, ?_⟩
  · have hpt := pointin_of_disk hw hh hin
    unfold process_event
    simp only [eq_self_iff_true, true_or, true_and, if_true]
    rw [if_pos hpt]
    rw [add_sub_cancel_left (srect.x + srect.w.fdiv 2) dx]
    rw [add_sub_cancel_left (srect.y + srect.h.fdiv 2) dy]
    rw [if_neg (not_lt.mpr (sqrt_dist_le_radius hin))]
    rfl
  · intro cfg initial
    rfl
  · unfold _generate_wheel_surface
    simp only []
    rw [Int.toNat_of_nonneg (by linarith : (0 : ℤ) ≤ (radius : ℤ) + dx)]
    rw [Int.toNat_of_nonneg (by linarith : (0 : ℤ) ≤ (radius : ℤ) + dy)]
    rw [add_sub_cancel_left (radius : ℤ) dx]
    rw [add_sub_cancel_left (radius : ℤ) dy]
    rw [if_neg (not_lt.mpr (sqrt_dist_le_radius hin))]
    rfl

/-- Witness for C5: a center click on a radius-5 wheel at rectangle
(0, 0, 10, 10). -/
theorem wheel_click_commits_and_terminates_witness :
    process_event ⟨5, ⟨0, 0, 10, 10⟩, ⟨0, 0, 10, 10⟩, none, true⟩
        ⟨PEventType.mousebuttondown, 1⟩ 5 5 =
      (⟨5, ⟨0, 0, 10, 10⟩, ⟨0, 0, 10, 10⟩, some (specHSVColor 5 0 0), true⟩,
       [WheelEmit.gadgetup]) ∧
    colorwheel_req ⟨none, 320, 200⟩ none [[GEvent.wheelUp (specHSVColor 5 0 0)]] =
      some (some (specHSVColor 5 0 0), ⟨none, 320, 200⟩) ∧
    (_generate_wheel_surface 5).pix 5 5 = specHSVColor 5 0 0 := by
  have h := wheel_click_commits_and_terminates 5 ⟨0, 0, 10, 10⟩ ⟨0, 0, 10, 10⟩ none true 0 0
    (by decide) (by decide) (by decide)
  exact ⟨h.1, h.2.1 ⟨none, 320, 200⟩ none, h.2.2⟩

/-- Each channel of a Color is an 8-bit intensity: an integer in the
range 0 to 255 inclusive. -/
def channelsOK (c : Color) : Prop :=
  (0 ≤ c.1 ∧ c.1 ≤ 255) ∧ (0 ≤ c.2.1 ∧ c.2.1 ≤ 255) ∧ (0 ≤ c.2.2 ∧ c.2.2 ≤ 255)

theorem two_pi_pos : (0 : ℝ) < 2 * Real.pi := by
  have := Real.pi_pos
  linarith

/-- The spec HSV color always has 8-bit channels: the hue is a
nonnegative fraction, the saturation is clamped into the unit interval
and the value is 1, so each converted channel lies in the unit interval
before scaling. -/
theorem specHSVColor_channelsOK (radius : ℕ) (dx dy : ℤ) :
    channelsOK (specHSVColor radius dx dy) := by
  unfold specHSVColor channelsOK
  simp only []
  have hhue : 0 ≤ pymod (atan2 (-(dy : ℝ)) (dx : ℝ)) (2 * Real.pi) / (2 * Real.pi) :=
    div_nonneg (pymod_nonneg _ two_pi_pos) (le_of_lt two_pi_pos)
  have hs0 : 0 ≤ min (1 : ℝ) (Real.sqrt ((dx : ℝ) ^ 2 + (dy : ℝ) ^ 2) / (radius : ℝ)) :=
    le_min (by norm_num) (div_nonneg (Real.sqrt_nonneg _) (Nat.cast_nonneg _))
  have hs1 : min (1 : ℝ) (Real.sqrt ((dx : ℝ) ^ 2 + (dy : ℝ) ^ 2) / (radius : ℝ)) ≤ 1 :=
    min_le_left _ _
  obtain ⟨⟨h1a, h1b⟩, ⟨h2a, h2b⟩, h3a, h3b⟩ := hsv_to_rgb_mem_unit hhue hs0 hs1
  exact ⟨truncInt_channel_range h1a h1b, truncInt_channel_range h2a h2b,
    truncInt_channel_range h3a h3b⟩

/-- C10: every Color the core produces has integer channels in 0..255:
every pixel of the rendered wheel buffer, every color the spec formula
yields, and every value a wheel click commits — process_event either
leaves the stored value unchanged or stores the spec HSV color of some
displacement. -/
theorem committed_channels_in_byte_range (radius : ℕ) (_hr : 0 < radius) :
    (∀ x y : ℕ, channelsOK ((_generate_wheel_surface radius).pix x y)) ∧
    (∀ dx dy : ℤ, channelsOK (specHSVColor radius dx dy)) ∧
    (∀ (g : WheelState) (ev : PEvent) (mx my : ℤ),
      (process_event g ev mx my).1.value = g.value ∨
      ∃ dx dy : ℤ, (process_event g ev mx my).1.value =
        some (specHSVColor g.radius dx dy)) := by
  refine ⟨?_, ?_, ?_⟩
  · intro x y
    rcases gen_pix_cases radius x y with h | h
    · rw [h]
      exact ⟨⟨le_refl 0, by norm_num⟩, ⟨le_refl 0, by norm_num⟩, le_refl 0, by norm_num⟩
    · rw [h]
      exact specHSVColor_channelsOK radius _ _
  · intro dx dy
    exact specHSVColor_channelsOK radius dx dy
  · intro g ev mx my
    unfold process_event
    split
    · split
      · split
        · simp only []
          split
          · exact Or.inl rfl
          · exact Or.inr ⟨mx - (g.screenrect.x + g.screenrect.w.fdiv 2),
              my - (g.screenrect.y + g.screenrect.h.fdiv 2), rfl⟩
        · exact Or.inl rfl
      · exact Or.inl rfl
    · exact Or.inl rfl

/-- Witness for C10 at radius 1. -/
theorem committed_channels_in_byte_range_witness :
    0 < 1 ∧
    ((∀ x y : ℕ, channelsOK ((_generate_wheel_surface 1).pix x y)) ∧
     (∀ dx dy : ℤ, channelsOK (specHSVColor 1 dx dy)) ∧
     (∀ (g : WheelState) (ev : PEvent) (mx my : ℤ),
       (process_event g ev mx my).1.value = g.value ∨
       ∃ dx dy : ℤ, (process_event g ev mx my).1.value =
         some (specHSVColor g.radius dx dy))) :=
  ⟨Nat.one_pos, committed_channels_in_byte_range 1 Nat.one_pos⟩

/-- C4 (code evaluated at the failing input): drawing the radius-88
wheel gadget into rectangle (0, 0, 176, 176) over any screen, with the
default panel background (160, 160, 160), leaves the top-left corner
pixel of the blitted square — which lies outside the circle — at the
opaque black (0, 0, 0) of the wheel buffer, not at the background
color: the background fill does not show through outside the circle,
because the buffer is blitted with no colorkey or alpha even though
the renderer comment announces a transparent mask. -/
theorem out_of_wheel_corner_stays_black :
    (draw ⟨88, ⟨0, 0, 176, 176⟩, ⟨0, 0, 0, 0⟩, none, true⟩ (fun _ _ => (7, 7, 7)) 0 0
        (160, 160, 160)).2 0 0 = (0, 0, 0) ∧
    ((0, 0, 0) : Color) ≠ (160, 160, 160) := by
  constructor
  · have h1 : (draw ⟨88, ⟨0, 0, 176, 176⟩, ⟨0, 0, 0, 0⟩, none, true⟩ (fun _ _ => (7, 7, 7)) 0 0
        (160, 160, 160)).2 =
        blit (fill (fun _ _ => (7, 7, 7)) (160, 160, 160) ⟨0, 0, 176, 176⟩)
          (_generate_wheel_surface 88) 0 0 := rfl
    rw [h1]
    have h2 : blit (fill (fun _ _ => (7, 7, 7)) (160, 160, 160) ⟨0, 0, 176, 176⟩)
        (_generate_wheel_surface 88) 0 0 0 0 = (_generate_wheel_surface 88).pix 0 0 := by
      unfold blit
      split
      · rfl
      · rename_i hc
        exact absurd (by decide) hc
    rw [h2]
    have hgt : ((88 : ℕ) : ℝ) <
        Real.sqrt ((((((0 : ℕ) : ℤ) - ((88 : ℕ) : ℤ) : ℤ)) : ℝ) ^ 2 +
          (((((0 : ℕ) : ℤ) - ((88 : ℕ) : ℤ) : ℤ)) : ℝ) ^ 2) :=
      @radius_lt_sqrt_dist (((0 : ℕ) : ℤ) - ((88 : ℕ) : ℤ))
        (((0 : ℕ) : ℤ) - ((88 : ℕ) : ℤ)) 88 (by decide)
    unfold _generate_wheel_surface
    simp only []
    rw [if_pos hgt]
  · decide

/-- Witness for the amended C1 at a concrete configuration. -/
theorem confirm_without_selection_returns_none_witness :
    colorwheel_req ⟨none, 640, 480⟩ none [[GEvent.okUp]] =
      some (none, ⟨none, 640, 480⟩) :=
  confirm_without_selection_returns_none ⟨none, 640, 480⟩

/-- Witness for C6 on the empty cache at radius 7. -/
theorem wheel_cache_idempotent_witness :
    (_get_wheel_surface (_get_wheel_surface (fun _ => none) 7).2.1 7).1 =
        (_get_wheel_surface (fun _ => none) 7).1 ∧
    (_get_wheel_surface (_get_wheel_surface (fun _ => none) 7).2.1 7).2.2 = false ∧
    (_get_wheel_surface (_get_wheel_surface (fun _ => none) 7).2.1 7).2.1 =
        (_get_wheel_surface (fun _ => none) 7).2.1 ∧
    ∀ radius2 : ℕ,
      (_get_wheel_surface (_get_wheel_surface (fun _ => none) 7).2.1 radius2).2.1 7 =
        some (_get_wheel_surface (fun _ => none) 7).1 :=
  wheel_cache_idempotent (fun _ => none) 7

/-- Witness for C7 at a concrete configuration and initial color. -/
theorem initial_color_confirm_commits_witness :
    (initState (some (10, 20, 30))).wheelValue = some (10, 20, 30) ∧
    colorwheel_req ⟨none, 320, 200⟩ (some (10, 20, 30)) [[GEvent.okUp]] =
      some (some (10, 20, 30), ⟨none, 320, 200⟩) :=
  initial_color_confirm_commits ⟨none, 320, 200⟩ (10, 20, 30)

/-- Witness for C8 at a concrete configuration, seeded color, loop
state and batch tail. -/
theorem cancel_terminates_with_no_color_witness :
    colorwheel_req ⟨some ⟨0, 0, 5, 5⟩, 320, 200⟩ (some (9, 9, 9)) [[GEvent.cancelUp]] =
      some (none, ⟨some ⟨0, 0, 5, 5⟩, 320, 200⟩) ∧
    (loopBody ⟨some (9, 9, 9), none, true⟩
        (GEvent.cancelUp :: [GEvent.okUp])).selected = none ∧
    (loopBody ⟨some (9, 9, 9), none, true⟩
        (GEvent.cancelUp :: [GEvent.okUp])).running = false :=
  cancel_terminates_with_no_color ⟨some ⟨0, 0, 5, 5⟩, 320, 200⟩ (some (9, 9, 9))
    ⟨some (9, 9, 9), none, true⟩ [GEvent.okUp]

end ColorWheel
